import Mathlib

/-!
Shallow embedding of `PrepRunFp/RunFp/RunFp.py`: the `set_directory`
context manager and the abstract `RunFp` operator (`execute`,
`normalize_config`, and the abstract methods `input_files`, `run_task`,
`args`).

Paths are modelled as lists of components (`FsPath`); an absolute path
`/a/b` is `["a", "b"]`.  The filesystem is a record of the regular files,
directories and symbolic links present.  A stateful, possibly-failing
Python computation is modelled as `M α = State → State × Except Err α`:
exceptions do not roll back filesystem effects, so the state is returned
alongside the error.
-/

/-- A filesystem path, as a list of components.  Absolute paths are lists
rooted at `/`; relative paths (such as `Path(task_name)`) are resolved
against the current working directory by appending. -/
abbrev FsPath := List String

/-- `Path.name`: the final component of a path. -/
def fileName (p : FsPath) : String := p.getLastD ""

/-- Rendering of an absolute path, as Python prints a `PosixPath`
(used in the `FatalError` message `f"cannot file file {ii}"`). -/
def pathStr (p : FsPath) : String := p.foldl (fun acc c => acc ++ "/" ++ c) ""

/-- The Python exceptions the modelled code can raise. -/
inductive Err where
  | fatalError (msg : String)
  | transientError (msg : String)
  | keyError (key : String)
  | attributeError (msg : String)
  | typeError (msg : String)
  | fileExistsError (path : FsPath)
  | notADirectoryError (path : FsPath)
  | checkError (key : String)
deriving DecidableEq, Repr

/-- The filesystem: regular files, directories, and symbolic links
(link location paired with its target).  All stored paths are absolute. -/
structure FileSystem where
  files : List FsPath
  dirs : List FsPath
  links : List (FsPath × FsPath)
deriving DecidableEq, Repr

/-- Process state: current working directory plus the filesystem. -/
structure State where
  cwd : FsPath
  fs : FileSystem
deriving DecidableEq, Repr

/-- A stateful Python computation that may raise: the final state is
produced even on failure (exceptions do not undo filesystem effects). -/
abbrev M (α : Type) := State → State × Except Err α

/-- `os.path.isfile`: true for a regular file, or for a symlink whose
target is a regular file (link targets are stored absolute, and the code
only ever links to already-resolved plain files, so one level of
following suffices). -/
def isfile (fs : FileSystem) (p : FsPath) : Bool :=
  fs.files.contains p || fs.links.any (fun l => l.1 == p && fs.files.contains l.2)

/-- `os.path.lexists`-style check: some entry (file, directory or link,
even a dangling one) occupies the path. -/
def entryExists (fs : FileSystem) (p : FsPath) : Bool :=
  fs.files.contains p || fs.dirs.contains p || fs.links.any (fun l => l.1 == p)

/-- An entry that exists but is not a directory. -/
def entryNonDir (fs : FileSystem) (p : FsPath) : Bool :=
  fs.files.contains p || fs.links.any (fun l => l.1 == p)

/-- All the ancestors of a path, the path itself included. -/
def pathInits : FsPath → List FsPath
  | [] => [[]]
  | a :: rest => [] :: (pathInits rest).map (a :: ·)

/-- `Path.mkdir(exist_ok=True, parents=True)`: succeed if the directory
already exists; fail if the path (or an ancestor) is occupied by a
non-directory; otherwise create the directory and any missing parents. -/
def mkdirP (target : FsPath) (fs : FileSystem) : Except Err FileSystem :=
  if fs.dirs.contains target then .ok fs
  else if entryNonDir fs target then .error (.fileExistsError target)
  else if (pathInits target).any (fun q => q != target && entryNonDir fs q) then
    .error (.notADirectoryError target)
  else .ok { fs with dirs := (pathInits target).filter (fun q => !(fs.dirs.contains q)) ++ fs.dirs }

/-- `Path(link).symlink_to(target)`: fails with `FileExistsError` when any
entry already occupies the link path; otherwise records the link. -/
def symlinkTo (link target : FsPath) (fs : FileSystem) : Except Err FileSystem :=
  if entryExists fs link then .error (.fileExistsError link)
  else .ok { fs with links := (link, target) :: fs.links }

/-- The `set_directory` context manager (lines 42-63 of the source):
record the absolute cwd, `mkdir` the target (tolerating pre-existence),
`chdir` into it, run the enclosed block, and in a `finally` clause
`chdir` back — on success and on failure alike, re-raising the block's
exception unchanged.  `path` is resolved against the ambient working
directory, as the relative `Path(task_name)` is in `execute`. -/
def set_directory {α : Type} (path : FsPath) (body : M α) : M α := fun s =>
  let cwd := s.cwd
  match mkdirP (s.cwd ++ path) s.fs with
  | .error e => (s, .error e)
  | .ok fs1 =>
    let r := body { cwd := s.cwd ++ path, fs := fs1 }
    ({ r.1 with cwd := cwd }, r.2)

/-- An atomic value inside a run-configuration mapping: Python `None`,
a string, or a number.  (Configuration nesting is modelled one level
deep — the outer `config` dict holds sub-dicts of atoms — which covers
everything the source reads out of these blobs.) -/
inductive Atom where
  | anull
  | astr (s : String)
  | anat (n : Nat)
deriving DecidableEq, Repr

/-- A Python `dict` of atomic values, as an association list. -/
abbrev ConfigDict := List (String × Atom)

/-- A value inside the outer `config` mapping: Python `None`, an atom,
or a sub-mapping such as the one stored under the key `"run"`. -/
inductive JVal where
  | vnull
  | vatom (a : Atom)
  | vdict (d : ConfigDict)
deriving DecidableEq, Repr

/-- One entry of a `dargs` argument schema, restricted to the features
the source exercises: a name and a default that `normalize_value` fills
when the key is absent.  (`dargs` is an external library; this embeds the
behaviour `RunFp.normalize_config` relies on.) -/
structure Argument where
  name : String
  default : Atom
deriving DecidableEq, Repr

/-- Whether a key is declared by the schema. -/
def declaredArg (ta : List Argument) (k : String) : Bool :=
  ta.any (fun a => a.name == k)

/-- The trim pattern `"_*"` of `normalize_value`: a key matches when its
first character is an underscore. -/
def matchesTrim (k : String) : Bool :=
  match k.data with
  | [] => false
  | c :: _ => c == '_'

/-- `dargs` `Argument.normalize_value(data, trim_pattern="_*")`: drop the
keys matching `_*`, keep every other key (defined or not), and fill the
declared defaults for absent keys. -/
def normalizeValue (ta : List Argument) (data : ConfigDict) : ConfigDict :=
  let trimmed := data.filter (fun kv => !(matchesTrim kv.1))
  trimmed ++ (ta.filter (fun a => trimmed.all (fun kv => kv.1 != a.name))).map
    (fun a => (a.name, a.default))

/-- `RunFp.normalize_config` (lines 147-165): build the base argument
from `cls.args()`, normalize with trim pattern `"_*"`, then
`check_value(data, strict=strict)` — which, when strict, rejects any key
the schema does not declare.  `strict` defaults to `True` as in the
source signature. -/
def normalize_config (ta : List Argument) (data : ConfigDict) (strict : Bool := true) :
    Except Err ConfigDict :=
  let d := normalizeValue ta data
  match d.find? (fun kv => !(declaredArg ta kv.1)) with
  | some kv => if strict then .error (.checkError kv.1) else .ok d
  | none => .ok d

/-- The input record of `RunFp.get_input_sign` (lines 72-85), with the
declared defaults: `log_name="log"`, `backward_dir_name="backward_dir"`,
`config={}`, `optional_input={}`, and `optional_artifact` an optional
artifact (absent modelled as `none`, dflow hands the OP `None` for an
optional artifact that was not supplied). -/
structure InputRecord where
  task_name : String
  task_path : FsPath
  backward_list : List String
  log_name : String := "log"
  backward_dir_name : String := "backward_dir"
  config : List (String × JVal) := []
  optional_artifact : Option (List (String × FsPath)) := none
  optional_input : ConfigDict := []
deriving DecidableEq, Repr

/-- The output record of `RunFp.get_output_sign` (lines 87-93). -/
structure Out where
  backward_dir : FsPath
deriving DecidableEq, Repr

/-- A concrete `RunFp` subclass: the three abstract members every task
type supplies — `input_files` (mandatory input names), `run_task` (the
computation run inside the staged directory, returning the name of the
directory holding the backward files), and `args` (the `dargs` schema of
the run configuration). -/
structure RunFp where
  input_files : List String
  run_task : String → String → List String → ConfigDict → ConfigDict → M String
  args : List Argument

/-- Lines 199-200 of `execute`: `ip["config"]["run"]` (a `KeyError` when
the key is absent), with `None` replaced by `{}`, then
`type(self).normalize_config(run_config, strict=False)` against the
schema `ta = cls.args()`.  A non-mapping value under `"run"` is rejected
by `dargs` when it is normalized. -/
def runConfigOf (ta : List Argument) (config : List (String × JVal)) :
    Except Err ConfigDict :=
  match List.lookup "run" config with
  | none => .error (.keyError "run")
  | some v =>
    match (match v with
           | .vnull => Except.ok ([] : ConfigDict)
           | .vdict d => Except.ok d
           | .vatom _ => Except.error (Err.typeError "run config is not a mapping")) with
    | .error e => .error e
    | .ok run0 => normalize_config ta run0 false

/-- Lines 214-218 of `execute`: for each resolved mandatory input, raise
`FatalError(f"cannot file file {ii}")` if it is not a file, else symlink
it under its base name in the current directory. -/
def linkInputFiles : List FsPath → M Unit
  | [] => fun s => (s, .ok ())
  | ii :: rest => fun s =>
    if isfile s.fs ii then
      match symlinkTo (s.cwd ++ [fileName ii]) ii s.fs with
      | .error e => (s, .error e)
      | .ok fs1 => linkInputFiles rest { s with fs := fs1 }
    else (s, .error (.fatalError ("cannot file file " ++ pathStr ii)))

/-- Lines 219-222 of `execute`: for each resolved optional input, symlink
it under its base name only when it is a file; silently skip otherwise. -/
def linkOptFiles : List FsPath → M Unit
  | [] => fun s => (s, .ok ())
  | ii :: rest => fun s =>
    if isfile s.fs ii then
      match symlinkTo (s.cwd ++ [fileName ii]) ii s.fs with
      | .error e => (s, .error e)
      | .ok fs1 => linkOptFiles rest { s with fs := fs1 }
    else linkOptFiles rest s

/-- The body of the `with set_directory(work_dir)` block (lines 212-223):
link mandatory inputs, link present optional inputs, then delegate to
`run_task` and capture the directory name it returns. -/
def RunFp.stageBody (op : RunFp) (input_files opt_input_files : List FsPath)
    (backward_dir_name log_name : String) (backward_list : List String)
    (run_config optional_input : ConfigDict) : M String := fun s =>
  match linkInputFiles input_files s with
  | (s1, .error e) => (s1, .error e)
  | (s1, .ok _) =>
    match linkOptFiles opt_input_files s1 with
    | (s2, .error e) => (s2, .error e)
    | (s2, .ok _) =>
      op.run_task backward_dir_name log_name backward_list run_config optional_input s2

/-- `RunFp.execute` (lines 167-228): extract the fields, normalize the
run configuration (lenient mode), resolve the mandatory files and the
keys of `optional_artifact` under `task_path` (`.items()` on an absent —
`None` — artifact raises `AttributeError`), stage and run inside
`set_directory(Path(task_name))`, and return
`work_dir / backward_dir_name` with the name `run_task` returned. -/
def RunFp.execute (op : RunFp) (ip : InputRecord) : M Out := fun s =>
  let backward_dir_name := ip.backward_dir_name
  let log_name := ip.log_name
  let backward_list := ip.backward_list
  match runConfigOf op.args ip.config with
  | .error e => (s, .error e)
  | .ok run_config =>
    let optional_input := ip.optional_input
    let task_name := ip.task_name
    let task_path := ip.task_path
    let input_files := op.input_files.map (fun ii => task_path ++ [ii])
    let work_dir := [task_name]
    match ip.optional_artifact with
    | none => (s, .error (.attributeError "NoneType object has no attribute items"))
    | some oa =>
      let opt_input_files := oa.map (fun kv => task_path ++ [kv.1])
      match set_directory work_dir
          (op.stageBody input_files opt_input_files backward_dir_name log_name
            backward_list run_config optional_input) s with
      | (s1, .error e) => (s1, .error e)
      | (s1, .ok name) => (s1, .ok ⟨work_dir ++ [name]⟩)

/-!
Concrete fixtures: a small filesystem with an input directory
`/inputs` holding `POSCAR` and `extra.json`, an initial working
directory `/work`, and well-behaved concrete task implementations.
-/

/-- A well-behaved `run_task`: creates `backward_dir_name/log_name`
inside the current (staged) directory and returns `backward_dir_name`. -/
def rtWell : String → String → List String → ConfigDict → ConfigDict → M String :=
  fun bdn log _ _ _ s =>
    ({ s with fs := { s.fs with
        dirs := (s.cwd ++ [bdn]) :: s.fs.dirs,
        files := (s.cwd ++ [bdn, log]) :: s.fs.files } }, .ok bdn)

/-- A `run_task` that ignores the requested directory name: it creates
and returns `custom_out` instead. -/
def rtCustom : String → String → List String → ConfigDict → ConfigDict → M String :=
  fun _ log _ _ _ s =>
    ({ s with fs := { s.fs with
        dirs := (s.cwd ++ ["custom_out"]) :: s.fs.dirs,
        files := (s.cwd ++ ["custom_out", log]) :: s.fs.files } }, .ok "custom_out")

/-- `/inputs` holds `POSCAR` and `extra.json`; `/work` is the ambient
working directory. -/
def fs0 : FileSystem :=
  { files := [["inputs", "POSCAR"], ["inputs", "extra.json"]],
    dirs := [[], ["work"], ["inputs"]],
    links := [] }

/-- Initial state: in `/work`, over `fs0`. -/
def s0 : State := { cwd := ["work"], fs := fs0 }

/-- A task type whose single mandatory input is `POSCAR`. -/
def opPoscar : RunFp :=
  { input_files := ["POSCAR"], run_task := rtWell, args := [] }

/-- A task type with mandatory inputs `POSCAR` and `INCAR`. -/
def opTwo : RunFp :=
  { input_files := ["POSCAR", "INCAR"], run_task := rtWell, args := [] }

/-- The §8 scenario input: mandatory `POSCAR` present, and
`optional_artifact = {"aux": /inputs/extra.json}`. -/
def ip2 : InputRecord :=
  { task_name := "t2", task_path := ["inputs"], backward_list := ["OUTCAR"],
    config := [("run", JVal.vdict [])],
    optional_artifact := some [("aux", ["inputs", "extra.json"])] }

/-- The same scenario with the optional artifact keyed by `extra.json`
(the key a caller must use for the file to be staged). -/
def ip2b : InputRecord :=
  { ip2 with task_name := "t2b",
             optional_artifact := some [("extra.json", ["inputs", "extra.json"])] }

/-- Input for the missing-`INCAR` scenario. -/
def ip6 : InputRecord :=
  { task_name := "t6", task_path := ["inputs"], backward_list := [],
    config := [("run", JVal.vdict [])], optional_artifact := some [] }

/-- Input for the retry scenario. -/
def ip9 : InputRecord :=
  { task_name := "t9", task_path := ["inputs"], backward_list := [],
    config := [("run", JVal.vdict [])], optional_artifact := some [] }

/-- A task type whose `run_task` ignores the requested backward
directory name and returns `custom_out`. -/
def opCustom : RunFp :=
  { input_files := ["POSCAR"], run_task := rtCustom, args := [] }

/-- Input for the authoritative-return-value scenario: the requested
`backward_dir_name` keeps its default `backward_dir`, which `rtCustom`
ignores. -/
def ip5 : InputRecord :=
  { task_name := "t5", task_path := ["inputs"], backward_list := ["OUTCAR"],
    config := [("run", JVal.vdict [])], optional_artifact := some [] }

/-- A one-entry schema declaring `command` with default `"vasp"`. -/
def taCmd : List Argument := [{ name := "command", default := Atom.astr "vasp" }]

/-- A run configuration holding only a key the schema does not declare. -/
def dataBogus : ConfigDict := [("bogus", Atom.anat 1)]

deriving instance DecidableEq for Except

/-- A block that always raises, used to exercise the failure path of
`set_directory`. -/
def bodyBoom : M Unit := fun s => (s, Except.error (Err.transientError "boom"))

/-- C4: for every target path and enclosed block, after `set_directory`
exits — whether the block completes normally or raises — the ambient
working directory equals what it was immediately before entry, and the
block's outcome (failure included) is returned verbatim, never masked. -/
theorem set_directory_restores_and_reraises (α : Type) (path : FsPath) (body : M α)
    (s : State) :
    ((set_directory path body s).1.cwd = s.cwd) ∧
    (∀ fs1, mkdirP (s.cwd ++ path) s.fs = Except.ok fs1 →
      (set_directory path body s).2 = (body { cwd := s.cwd ++ path, fs := fs1 }).2) := by
  unfold set_directory
  cases h : mkdirP (s.cwd ++ path) s.fs with
  | error e => exact ⟨rfl, fun fs1 h1 => Except.noConfusion h1⟩
  | ok fs1 => exact ⟨rfl, fun fs2 h2 => by cases h2; rfl⟩

/-- Witness for C4: a block that raises inside `set_directory` still sees
the working directory restored, and the failure is re-raised as is. -/
theorem set_directory_restores_witness :
    ((set_directory ["t4w"] bodyBoom s0).1.cwd = s0.cwd)
    ∧ (set_directory ["t4w"] bodyBoom s0).2 = Except.error (Err.transientError "boom") := by
  have h := set_directory_restores_and_reraises Unit ["t4w"] bodyBoom s0
  refine ⟨h.1, ?_⟩
  have h2 := h.2
    { files := [["inputs", "POSCAR"], ["inputs", "extra.json"]],
      dirs := [["work", "t4w"], [], ["work"], ["inputs"]], links := [] } (by decide)
  exact h2.trans rfl

/-- C2 counterexample: in the §8 scenario (`POSCAR` mandatory and
present, `task_path` holding `POSCAR` and `extra.json`,
`optional_artifact = {"aux": /inputs/extra.json}`), execution succeeds
but the staged directory holds no link named `extra.json` — only the
`POSCAR` link — because the artifact's path value is never consulted:
only the key `aux` is resolved under `task_path`, and `/inputs/aux` does
not exist. -/
theorem execute_scenario_no_extra_json_link :
    (RunFp.execute opPoscar ip2 s0).2 = Except.ok ⟨["t2", "backward_dir"]⟩
    ∧ (RunFp.execute opPoscar ip2 s0).1.fs.links
        = [(["work", "t2", "POSCAR"], ["inputs", "POSCAR"])]
    ∧ ((RunFp.execute opPoscar ip2 s0).1.fs.links.all
        (fun l => fileName l.1 != "extra.json")) = true := by
  exact ⟨rfl, rfl, rfl⟩

/-- C2 amended: optional artifacts are staged by key — each key of
`optional_artifact` is resolved as `task_path/<key>`, linked under its
base name when that file exists and silently skipped otherwise, the path
value never being read.  In the §8 scenario the key `aux` resolves to the
non-existent `/inputs/aux`, so only `POSCAR` is linked and no error is
raised; `run_task` is still invoked (it creates `backward_dir/log`) and
the output equals `<task_name>/backward_dir`.  Keying the artifact by
`extra.json` instead does produce the `extra.json` link. -/
theorem execute_optional_links_by_key :
    (RunFp.execute opPoscar ip2 s0).2 = Except.ok ⟨["t2", "backward_dir"]⟩
    ∧ (RunFp.execute opPoscar ip2 s0).1.fs.links
        = [(["work", "t2", "POSCAR"], ["inputs", "POSCAR"])]
    ∧ (RunFp.execute opPoscar ip2 s0).1.fs.files.contains
        ["work", "t2", "backward_dir", "log"] = true
    ∧ (RunFp.execute opPoscar ip2b s0).1.fs.links
        = [(["work", "t2b", "extra.json"], ["inputs", "extra.json"]),
           (["work", "t2b", "POSCAR"], ["inputs", "POSCAR"])] := by
  exact ⟨rfl, rfl, rfl, rfl⟩

/-- C3: with the declared default `config = {}` (no `"run"` key at all),
`execute` raises `KeyError("run")` instead of treating the run
configuration as an empty mapping; only an explicit `config["run"] =
None` is replaced by the empty mapping, after which execution runs to
completion. -/
theorem execute_keyerror_when_run_absent :
    (RunFp.execute opPoscar
        { task_name := "t3", task_path := ["inputs"], backward_list := [] } s0).2
      = Except.error (Err.keyError "run")
    ∧ (RunFp.execute opPoscar
        { task_name := "t3", task_path := ["inputs"], backward_list := [],
          config := [("run", JVal.vnull)], optional_artifact := some [] } s0).2
      = Except.ok ⟨["t3", "backward_dir"]⟩ := by
  exact ⟨rfl, rfl⟩

/-- C6 counterexample: with mandatory `INCAR` declared but absent,
execution does fail fatally naming the resolved path `/inputs/INCAR` —
but only after the staging directory has been created and entered: the
failed state already contains the directory `work/t6` and, inside it,
the symlink for the earlier mandatory file `POSCAR` (created while the
staging directory was current). -/
theorem execute_missing_incar_enters_dir :
    (RunFp.execute opTwo ip6 s0).2
      = Except.error (Err.fatalError "cannot file file /inputs/INCAR")
    ∧ (RunFp.execute opTwo ip6 s0).1.fs.dirs.contains ["work", "t6"] = true
    ∧ (RunFp.execute opTwo ip6 s0).1.fs.links
        = [(["work", "t6", "POSCAR"], ["inputs", "POSCAR"])] := by
  exact ⟨rfl, rfl, rfl⟩

/-- C6 amended: with mandatory `INCAR` declared but absent from
`task_path`, execution fails before `run_task` with a fatal error that
identifies the missing file's resolved path; the staging directory has
however already been created and entered when the check runs, and the
ambient working directory is restored as the error propagates. -/
theorem execute_missing_incar_fatal :
    (RunFp.execute opTwo ip6 s0).2
      = Except.error (Err.fatalError ("cannot file file " ++ pathStr (["inputs"] ++ ["INCAR"])))
    ∧ (RunFp.execute opTwo ip6 s0).1.cwd = s0.cwd
    ∧ (RunFp.execute opTwo ip6 s0).1.fs.dirs.contains ["work", "t6"] = true := by
  exact ⟨rfl, rfl, rfl⟩

/-- C7: an input record without `optional_artifact` (the artifact is
declared `optional=True`, so dflow passes `None`) is not accepted:
`execute` calls `.items()` on the absent value and raises
`AttributeError` even though every mandatory file is present. -/
theorem execute_attrerror_when_optional_artifact_absent :
    (RunFp.execute opPoscar
        { task_name := "t7", task_path := ["inputs"], backward_list := [],
          config := [("run", JVal.vdict [])] } s0).2
      = Except.error (Err.attributeError "NoneType object has no attribute items") := by
  exact rfl

/-- C9 counterexample: a first invocation succeeds and leaves the input
link `work/t9/POSCAR` behind; re-running the identical invocation over
that state fails with `FileExistsError` on that very link —
`Path.symlink_to` does not tolerate pre-existing links, so staging is
not idempotent. -/
theorem execute_retry_fails_cex :
    (RunFp.execute opPoscar ip9 s0).2 = Except.ok ⟨["t9", "backward_dir"]⟩
    ∧ (RunFp.execute opPoscar ip9 (RunFp.execute opPoscar ip9 s0).1).2
        = Except.error (Err.fileExistsError ["work", "t9", "POSCAR"]) := by
  exact ⟨rfl, rfl⟩

/-- The base name of a path extended by one component is that component. -/
theorem fileName_append (p : FsPath) (a : String) : fileName (p ++ [a]) = a := by
  simp [fileName]

/-- Appending distinct single components to distinct paths keeps them
distinct. -/
theorem append_singleton_ne {a b : FsPath} {x y : String} (h : a ≠ b) :
    a ++ [x] ≠ b ++ [y] := by
  intro he
  have hl : a.length = b.length := by
    have h2 := congrArg List.length he
    simpa using h2
  exact h (List.append_inj_left he hl)

/-- Appending single components to the same path is injective. -/
theorem append_singleton_inj {a : FsPath} {x y : String} (h : a ++ [x] = a ++ [y]) : x = y := by
  have h2 := List.append_cancel_left h
  simpa using h2

/-- Ancestors recorded by `pathInits` are never longer than the path. -/
theorem pathInits_length {t p : FsPath} (hp : p ∈ pathInits t) : p.length ≤ t.length := by
  induction t generalizing p with
  | nil =>
    simp [pathInits] at hp
    subst hp
    simp
  | cons a rest ih =>
    simp [pathInits] at hp
    rcases hp with h | ⟨q, hq, rfl⟩
    · subst h
      simp
    · simpa using ih hq

/-- `mkdir` touches only the directory table. -/
theorem mkdirP_files_links {t : FsPath} {fs fs' : FileSystem}
    (h : mkdirP t fs = Except.ok fs') : fs'.files = fs.files ∧ fs'.links = fs.links := by
  unfold mkdirP at h
  split at h
  · cases h; exact ⟨rfl, rfl⟩
  · split at h
    · cases h
    · split at h
      · cases h
      · cases h; exact ⟨rfl, rfl⟩

/-- `isfile` is unaffected by `mkdir`. -/
theorem isfile_mkdirP {t : FsPath} {fs fs' : FileSystem}
    (h : mkdirP t fs = Except.ok fs') (p : FsPath) : isfile fs' p = isfile fs p := by
  obtain ⟨h1, h2⟩ := mkdirP_files_links h
  simp [isfile, h1, h2]

/-- Directories present after a successful `mkdir` were present before,
or are ancestors of the created target. -/
theorem mkdirP_dirs {t : FsPath} {fs fs' : FileSystem}
    (h : mkdirP t fs = Except.ok fs') (p : FsPath) (hp : fs'.dirs.contains p = true) :
    fs.dirs.contains p = true ∨ p ∈ pathInits t := by
  unfold mkdirP at h
  split at h
  · cases h; exact Or.inl hp
  · split at h
    · cases h
    · split at h
      · cases h
      · cases h
        simp at hp
        rcases hp with hmem | hmem
        · exact Or.inr hmem.1
        · exact Or.inl (by simpa using hmem)

/-- `mkdir` never removes a directory. -/
theorem mkdirP_dirs_mono {t : FsPath} {fs fs' : FileSystem}
    (h : mkdirP t fs = Except.ok fs') (p : FsPath) (hp : fs.dirs.contains p = true) :
    fs'.dirs.contains p = true := by
  unfold mkdirP at h
  split at h
  · cases h; exact hp
  · split at h
    · cases h
    · split at h
      · cases h
      · cases h
        simp at hp ⊢
        exact Or.inr hp

/-- `mkdir` never removes an entry. -/
theorem entryExists_mkdirP_mono {t : FsPath} {fs fs' : FileSystem}
    (h : mkdirP t fs = Except.ok fs') (p : FsPath) (hp : entryExists fs p = true) :
    entryExists fs' p = true := by
  obtain ⟨h1, h2⟩ := mkdirP_files_links h
  unfold entryExists at hp ⊢
  rw [h1, h2]
  simp only [Bool.or_eq_true] at hp ⊢
  rcases hp with (hf | hd) | hl
  · exact Or.inl (Or.inl hf)
  · exact Or.inl (Or.inr (mkdirP_dirs_mono h p hd))
  · exact Or.inr hl

/-- A path strictly longer than the `mkdir` target stays absent. -/
theorem entryExists_mkdirP_false {t : FsPath} {fs fs' : FileSystem}
    (h : mkdirP t fs = Except.ok fs') (p : FsPath) (hp : entryExists fs p = false)
    (hlen : t.length < p.length) : entryExists fs' p = false := by
  obtain ⟨h1, h2⟩ := mkdirP_files_links h
  unfold entryExists at hp ⊢
  rw [h1, h2]
  simp only [Bool.or_eq_false_iff] at hp ⊢
  refine ⟨⟨hp.1.1, ?_⟩, hp.2⟩
  by_contra hc
  have hc' : fs'.dirs.contains p = true := by simpa using hc
  rcases mkdirP_dirs h p hc' with hin | hin
  · rw [hp.1.2] at hin
    exact Bool.noConfusion hin
  · exact absurd (pathInits_length hin) (by omega)

/-- A path other than the new link's location stays a non-file after a
link is recorded. -/
theorem isfile_addlink_false {fs : FileSystem} {lk tg p : FsPath} (hne : lk ≠ p)
    (h : isfile fs p = false) :
    isfile { fs with links := (lk, tg) :: fs.links } p = false := by
  unfold isfile at h ⊢
  simp only [List.any_cons, Bool.or_eq_false_iff] at h ⊢
  have hb : (lk == p) = false := by simpa using hne
  refine ⟨h.1, ?_, h.2⟩
  simp [hb]

/-- A path that is a non-file after a link was recorded was a non-file
before. -/
theorem isfile_addlink_rev {fs : FileSystem} {lk tg p : FsPath}
    (h : isfile { fs with links := (lk, tg) :: fs.links } p = false) :
    isfile fs p = false := by
  unfold isfile at h ⊢
  simp only [List.any_cons, Bool.or_eq_false_iff] at h
  exact Bool.or_eq_false_iff.mpr ⟨h.1, h.2.2⟩

/-- A path other than the new link's location stays absent after a link
is recorded. -/
theorem entryExists_addlink_false {fs : FileSystem} {lk tg p : FsPath} (hne : lk ≠ p)
    (h : entryExists fs p = false) :
    entryExists { fs with links := (lk, tg) :: fs.links } p = false := by
  unfold entryExists at h ⊢
  simp only [List.any_cons, Bool.or_eq_false_iff] at h ⊢
  have hb : (lk == p) = false := by simpa using hne
  obtain ⟨⟨h1, h2⟩, h3⟩ := h
  exact ⟨⟨h1, h2⟩, by simp [hb], h3⟩

/-- The mandatory-input linking loop: if some listed file is missing and
the staging directory is fresh (no entry occupies any of the link names,
the names are distinct, and no listed source path coincides with a link
location), the loop stops with the `FatalError` naming some missing
file's resolved path. -/
theorem linkInputFiles_missing_fatal (files : List FsPath) (s : State)
    (hmiss : ∃ f ∈ files, isfile s.fs f = false)
    (hnodup : (files.map fileName).Nodup)
    (hfresh : ∀ f ∈ files, entryExists s.fs (s.cwd ++ [fileName f]) = false)
    (hsep : ∀ f ∈ files, ∀ g ∈ files, f ≠ s.cwd ++ [fileName g]) :
    ∃ f ∈ files, isfile s.fs f = false ∧ ∃ s2,
      linkInputFiles files s
        = (s2, Except.error (Err.fatalError ("cannot file file " ++ pathStr f))) := by
  induction files generalizing s with
  | nil => simp at hmiss
  | cons f rest ih =>
    by_cases hf : isfile s.fs f = true
    · have hfr : entryExists s.fs (s.cwd ++ [fileName f]) = false :=
        hfresh f (List.mem_cons_self f rest)
      have hstep : linkInputFiles (f :: rest) s
          = linkInputFiles rest
              { s with fs := { s.fs with links := (s.cwd ++ [fileName f], f) :: s.fs.links } } := by
        simp [linkInputFiles, hf, symlinkTo, hfr]
      have hname : fileName f ∉ rest.map fileName :=
        (List.nodup_cons.mp (by simpa using hnodup)).1
      have hm1 : ∃ g ∈ rest,
          isfile ({ s.fs with links := (s.cwd ++ [fileName f], f) :: s.fs.links }) g = false := by
        obtain ⟨g, hg, hgf⟩ := hmiss
        rcases List.mem_cons.mp hg with rfl | hgr
        · rw [hf] at hgf
          exact Bool.noConfusion hgf
        · exact ⟨g, hgr,
            isfile_addlink_false (Ne.symm (hsep g hg f (List.mem_cons_self f rest))) hgf⟩
      have hn1 : (rest.map fileName).Nodup := (List.nodup_cons.mp (by simpa using hnodup)).2
      have hfr1 : ∀ g ∈ rest,
          entryExists ({ s.fs with links := (s.cwd ++ [fileName f], f) :: s.fs.links })
            (s.cwd ++ [fileName g]) = false := by
        intro g hg
        refine entryExists_addlink_false ?_ (hfresh g (List.mem_cons_of_mem f hg))
        intro he
        exact hname (append_singleton_inj he ▸ List.mem_map_of_mem fileName hg)
      have hsep1 : ∀ a ∈ rest, ∀ b ∈ rest, a ≠ s.cwd ++ [fileName b] := by
        intro a ha b hb
        exact hsep a (List.mem_cons_of_mem f ha) b (List.mem_cons_of_mem f hb)
      obtain ⟨g, hg, hgfalse, s2, heq⟩ :=
        ih { s with fs := { s.fs with links := (s.cwd ++ [fileName f], f) :: s.fs.links } }
          hm1 hn1 hfr1 hsep1
      exact ⟨g, List.mem_cons_of_mem f hg, isfile_addlink_rev hgfalse, s2, hstep.trans heq⟩
    · have hf' : isfile s.fs f = false := by simpa using hf
      refine ⟨f, List.mem_cons_self f rest, hf', s, ?_⟩
      simp [linkInputFiles, hf']

/-- Core of C1: under the reachability side conditions, `execute` stops
with the missing-file `FatalError`, with a result that does not depend
on the `run_task` implementation at all. -/
theorem execute_missing_core
    (inf : List String) (args : List Argument) (ip : InputRecord) (s : State)
    (rc : ConfigDict) (oa : List (String × FsPath)) (fs1 : FileSystem)
    (hrc : runConfigOf args ip.config = Except.ok rc)
    (hoa : ip.optional_artifact = some oa)
    (hmk : mkdirP (s.cwd ++ [ip.task_name]) s.fs = Except.ok fs1)
    (hmiss : ∃ f ∈ inf, isfile s.fs (ip.task_path ++ [f]) = false)
    (hnodup : inf.Nodup)
    (hfresh : ∀ f ∈ inf, entryExists s.fs (s.cwd ++ [ip.task_name, f]) = false)
    (hsep : ip.task_path ≠ s.cwd ++ [ip.task_name]) :
    ∃ f ∈ inf, isfile s.fs (ip.task_path ++ [f]) = false ∧ ∃ s2 : State,
      ∀ rt, RunFp.execute ⟨inf, rt, args⟩ ip s
        = ({ s2 with cwd := s.cwd },
           Except.error (Err.fatalError ("cannot file file " ++ pathStr (ip.task_path ++ [f])))) := by
  have hcwd2 : ∀ f : String, (s.cwd ++ [ip.task_name]) ++ [f] = s.cwd ++ [ip.task_name, f] := by
    intro f
    rw [List.append_assoc]
    rfl
  have hmiss2 : ∃ p ∈ inf.map (fun ii => ip.task_path ++ [ii]),
      isfile fs1 p = false := by
    obtain ⟨f, hf, hff⟩ := hmiss
    refine ⟨ip.task_path ++ [f], List.mem_map_of_mem _ hf, ?_⟩
    rw [isfile_mkdirP hmk]
    exact hff
  have hmap : (inf.map (fun ii => ip.task_path ++ [ii])).map fileName = inf := by
    rw [List.map_map]
    have hcomp : (fileName ∘ fun ii => ip.task_path ++ [ii]) = fun ii : String => ii := by
      funext ii
      exact fileName_append ip.task_path ii
    rw [hcomp]
    exact List.map_id inf
  have hnodup2 : ((inf.map (fun ii => ip.task_path ++ [ii])).map fileName).Nodup := by
    rw [hmap]
    exact hnodup
  have hfresh2 : ∀ p ∈ inf.map (fun ii => ip.task_path ++ [ii]),
      entryExists fs1 ((s.cwd ++ [ip.task_name]) ++ [fileName p]) = false := by
    intro p hp
    obtain ⟨f, hf, rfl⟩ := List.mem_map.mp hp
    rw [fileName_append, hcwd2 f]
    refine entryExists_mkdirP_false hmk _ (hfresh f hf) ?_
    simp only [List.length_append, List.length_cons, List.length_nil]
    omega
  have hsep2 : ∀ p ∈ inf.map (fun ii => ip.task_path ++ [ii]),
      ∀ q ∈ inf.map (fun ii => ip.task_path ++ [ii]),
      p ≠ (s.cwd ++ [ip.task_name]) ++ [fileName q] := by
    intro p hp q hq
    obtain ⟨a, ha, rfl⟩ := List.mem_map.mp hp
    obtain ⟨b, hb, rfl⟩ := List.mem_map.mp hq
    rw [fileName_append]
    exact append_singleton_ne hsep
  obtain ⟨p, hpmem, hpfalse, s2, heq⟩ :=
    linkInputFiles_missing_fatal (inf.map (fun ii => ip.task_path ++ [ii]))
      ⟨s.cwd ++ [ip.task_name], fs1⟩ hmiss2 hnodup2 hfresh2 hsep2
  obtain ⟨f, hf, hfeq⟩ := List.mem_map.mp hpmem
  subst hfeq
  refine ⟨f, hf, ?_, s2, fun rt => ?_⟩
  · rw [← isfile_mkdirP hmk]
    exact hpfalse
  · simp only [RunFp.execute, set_directory, RunFp.stageBody, hrc, hoa, hmk, heq]

/-- C1: for every task type and input, if a mandatory file from
`input_files()` is absent from `task_path` (with the run configuration
extractable, the optional artifact supplied, the staging directory
creatable and fresh, distinct input names, and `task_path` distinct from
the staging directory), `execute` fails with the fatal `FatalError`
naming a missing file's resolved path, restores the working directory,
and never invokes `run_task`: its result is unchanged under any
replacement of `run_task`. -/
theorem execute_missing_mandatory_fatal
    (op : RunFp) (ip : InputRecord) (s : State)
    (rc : ConfigDict) (oa : List (String × FsPath)) (fs1 : FileSystem)
    (hrc : runConfigOf op.args ip.config = Except.ok rc)
    (hoa : ip.optional_artifact = some oa)
    (hmk : mkdirP (s.cwd ++ [ip.task_name]) s.fs = Except.ok fs1)
    (hmiss : ∃ f ∈ op.input_files, isfile s.fs (ip.task_path ++ [f]) = false)
    (hnodup : op.input_files.Nodup)
    (hfresh : ∀ f ∈ op.input_files, entryExists s.fs (s.cwd ++ [ip.task_name, f]) = false)
    (hsep : ip.task_path ≠ s.cwd ++ [ip.task_name]) :
    ∃ f ∈ op.input_files, isfile s.fs (ip.task_path ++ [f]) = false ∧
      (RunFp.execute op ip s).2
        = Except.error (Err.fatalError ("cannot file file " ++ pathStr (ip.task_path ++ [f])))
      ∧ (RunFp.execute op ip s).1.cwd = s.cwd
      ∧ ∀ rt, RunFp.execute { op with run_task := rt } ip s = RunFp.execute op ip s := by
  obtain ⟨f, hf, hfile, s2, hall⟩ :=
    execute_missing_core op.input_files op.args ip s rc oa fs1 hrc hoa hmk hmiss hnodup
      hfresh hsep
  have hop : RunFp.execute op ip s
      = ({ s2 with cwd := s.cwd },
         Except.error (Err.fatalError ("cannot file file " ++ pathStr (ip.task_path ++ [f])))) :=
    hall op.run_task
  refine ⟨f, hf, hfile, ?_, ?_, fun rt => ?_⟩
  · rw [hop]
  · rw [hop]
  · rw [hop]
    exact hall rt

/-- Witness for C1, at the concrete missing-`INCAR` input. -/
theorem execute_missing_mandatory_fatal_witness :
    ∃ f ∈ opTwo.input_files, isfile s0.fs (ip6.task_path ++ [f]) = false ∧
      (RunFp.execute opTwo ip6 s0).2
        = Except.error (Err.fatalError ("cannot file file " ++ pathStr (ip6.task_path ++ [f])))
      ∧ (RunFp.execute opTwo ip6 s0).1.cwd = s0.cwd
      ∧ ∀ rt, RunFp.execute { opTwo with run_task := rt } ip6 s0
          = RunFp.execute opTwo ip6 s0 :=
  execute_missing_mandatory_fatal opTwo ip6 s0 [] []
    { files := [["inputs", "POSCAR"], ["inputs", "extra.json"]],
      dirs := [["work", "t6"], [], ["work"], ["inputs"]], links := [] }
    (by decide) (by decide) (by decide) (by decide) (by decide) (by decide) (by decide)

/-- Core of the retry behaviour: when the first mandatory input's link
name is already occupied in the staging directory (as it is after a
crash or a previous run) while its source file exists, `execute` fails
with `FileExistsError` on that link, independently of `run_task`. -/
theorem execute_existing_link_core
    (inf : List String) (args : List Argument) (ip : InputRecord) (s : State)
    (rc : ConfigDict) (oa : List (String × FsPath)) (fs1 : FileSystem)
    (f0 : String) (rest : List String)
    (hrc : runConfigOf args ip.config = Except.ok rc)
    (hoa : ip.optional_artifact = some oa)
    (hmk : mkdirP (s.cwd ++ [ip.task_name]) s.fs = Except.ok fs1)
    (hin : inf = f0 :: rest)
    (hfile : isfile s.fs (ip.task_path ++ [f0]) = true)
    (hlinked : entryExists s.fs (s.cwd ++ [ip.task_name, f0]) = true) :
    ∀ rt, RunFp.execute ⟨inf, rt, args⟩ ip s
      = ({ cwd := s.cwd, fs := fs1 },
         Except.error (Err.fileExistsError (s.cwd ++ [ip.task_name, f0]))) := by
  subst hin
  intro rt
  have hfile1 : isfile fs1 (ip.task_path ++ [f0]) = true := by
    rw [isfile_mkdirP hmk]
    exact hfile
  have hassoc : (s.cwd ++ [ip.task_name]) ++ [f0] = s.cwd ++ [ip.task_name, f0] := by
    rw [List.append_assoc]
    rfl
  have hex : entryExists fs1 (s.cwd ++ [ip.task_name, f0]) = true :=
    entryExists_mkdirP_mono hmk _ hlinked
  simp only [RunFp.execute, set_directory, RunFp.stageBody, linkInputFiles, List.map_cons,
    hrc, hoa, hmk, fileName_append, hfile1, symlinkTo, hassoc, hex, if_true]

/-- C9 amended: staging is not idempotent — directory creation tolerates
pre-existence, but re-running `execute` with the same `task_name` over a
staging directory that already holds a link for the first mandatory
input fails with `FileExistsError` on that link (the working directory
is restored, and `run_task` is never reached: the result is unchanged
under any replacement of `run_task`). -/
theorem execute_retry_fails_on_existing_link
    (op : RunFp) (ip : InputRecord) (s : State)
    (rc : ConfigDict) (oa : List (String × FsPath)) (fs1 : FileSystem)
    (f0 : String) (rest : List String)
    (hrc : runConfigOf op.args ip.config = Except.ok rc)
    (hoa : ip.optional_artifact = some oa)
    (hmk : mkdirP (s.cwd ++ [ip.task_name]) s.fs = Except.ok fs1)
    (hin : op.input_files = f0 :: rest)
    (hfile : isfile s.fs (ip.task_path ++ [f0]) = true)
    (hlinked : entryExists s.fs (s.cwd ++ [ip.task_name, f0]) = true) :
    (RunFp.execute op ip s).2
        = Except.error (Err.fileExistsError (s.cwd ++ [ip.task_name, f0]))
    ∧ (RunFp.execute op ip s).1.cwd = s.cwd
    ∧ ∀ rt, RunFp.execute { op with run_task := rt } ip s = RunFp.execute op ip s := by
  have hall := execute_existing_link_core op.input_files op.args ip s rc oa fs1 f0 rest
    hrc hoa hmk hin hfile hlinked
  have hop := hall op.run_task
  refine ⟨?_, ?_, fun rt => ?_⟩
  · rw [hop]
  · rw [hop]
  · rw [hop]
    exact hall rt

/-- Witness for C9 amended: the state left by a successful first run of
the `t9` task, rerun with the identical input. -/
theorem execute_retry_fails_witness :
    (RunFp.execute opPoscar ip9 (RunFp.execute opPoscar ip9 s0).1).2
        = Except.error (Err.fileExistsError
            ((RunFp.execute opPoscar ip9 s0).1.cwd ++ [ip9.task_name, "POSCAR"]))
    ∧ (RunFp.execute opPoscar ip9 (RunFp.execute opPoscar ip9 s0).1).1.cwd
        = (RunFp.execute opPoscar ip9 s0).1.cwd
    ∧ ∀ rt, RunFp.execute { opPoscar with run_task := rt } ip9 (RunFp.execute opPoscar ip9 s0).1
        = RunFp.execute opPoscar ip9 (RunFp.execute opPoscar ip9 s0).1 :=
  execute_retry_fails_on_existing_link opPoscar ip9 (RunFp.execute opPoscar ip9 s0).1
    [] [] (RunFp.execute opPoscar ip9 s0).1.fs "POSCAR" []
    (by decide) (by decide) (by decide) (by decide) (by decide) (by decide)

/-- C5: for every successful invocation, the returned `backward_dir`
equals `task_name` joined with the directory name `run_task` returned —
the return value is authoritative, whatever `backward_dir_name` was
requested — relative to the caller's artifact root (the working
directory also being restored). -/
theorem execute_backward_dir_from_run_task
    (op : RunFp) (ip : InputRecord) (s : State)
    (rc : ConfigDict) (oa : List (String × FsPath)) (fs1 : FileSystem)
    (s1 s2 s3 : State) (name : String)
    (hrc : runConfigOf op.args ip.config = Except.ok rc)
    (hoa : ip.optional_artifact = some oa)
    (hmk : mkdirP (s.cwd ++ [ip.task_name]) s.fs = Except.ok fs1)
    (hlink : linkInputFiles (op.input_files.map (fun ii => ip.task_path ++ [ii]))
        { cwd := s.cwd ++ [ip.task_name], fs := fs1 } = (s1, Except.ok ()))
    (hopt : linkOptFiles (oa.map (fun kv => ip.task_path ++ [kv.1])) s1 = (s2, Except.ok ()))
    (hrun : op.run_task ip.backward_dir_name ip.log_name ip.backward_list rc ip.optional_input s2
        = (s3, Except.ok name)) :
    RunFp.execute op ip s = ({ s3 with cwd := s.cwd }, Except.ok ⟨[ip.task_name, name]⟩) := by
  simp only [RunFp.execute, set_directory, RunFp.stageBody, hrc, hoa, hmk, hlink, hopt, hrun,
    List.cons_append, List.nil_append]

/-- Witness for C5: `rtCustom` is asked for `backward_dir` but creates
and returns `custom_out`; the output field is `t5/custom_out`. -/
theorem execute_backward_dir_from_run_task_witness :
    RunFp.execute opCustom ip5 s0
      = ({ ({ cwd := ["work", "t5"],
              fs := { files := [["work", "t5", "custom_out", "log"],
                                ["inputs", "POSCAR"], ["inputs", "extra.json"]],
                      dirs := [["work", "t5", "custom_out"], ["work", "t5"], [], ["work"],
                               ["inputs"]],
                      links := [(["work", "t5", "POSCAR"], ["inputs", "POSCAR"])] } } : State)
            with cwd := s0.cwd },
         Except.ok ⟨["t5", "custom_out"]⟩) :=
  execute_backward_dir_from_run_task opCustom ip5 s0 [] []
    { files := [["inputs", "POSCAR"], ["inputs", "extra.json"]],
      dirs := [["work", "t5"], [], ["work"], ["inputs"]], links := [] }
    { cwd := ["work", "t5"],
      fs := { files := [["inputs", "POSCAR"], ["inputs", "extra.json"]],
              dirs := [["work", "t5"], [], ["work"], ["inputs"]],
              links := [(["work", "t5", "POSCAR"], ["inputs", "POSCAR"])] } }
    { cwd := ["work", "t5"],
      fs := { files := [["inputs", "POSCAR"], ["inputs", "extra.json"]],
              dirs := [["work", "t5"], [], ["work"], ["inputs"]],
              links := [(["work", "t5", "POSCAR"], ["inputs", "POSCAR"])] } }
    { cwd := ["work", "t5"],
      fs := { files := [["work", "t5", "custom_out", "log"],
                        ["inputs", "POSCAR"], ["inputs", "extra.json"]],
              dirs := [["work", "t5", "custom_out"], ["work", "t5"], [], ["work"], ["inputs"]],
              links := [(["work", "t5", "POSCAR"], ["inputs", "POSCAR"])] } }
    "custom_out"
    (by decide) (by decide) (by decide) (by decide) (by decide) (by decide)

/-- C8: configuration normalization is asymmetric.  For any schema and
any data carrying an undeclared (non-trimmed) key, the standalone
`normalize_config` — whose `strict` flag defaults to true — rejects the
data with a check error, while the lenient pass used during `execute`
(`strict=False`, via `runConfigOf` over `config["run"]`) accepts it,
filling the declared defaults and keeping the unknown key. -/
theorem normalize_config_strict_asymmetry
    (ta : List Argument) (data : ConfigDict) (k : String) (v : Atom)
    (hk : (k, v) ∈ data)
    (hundecl : declaredArg ta k = false)
    (htrim : matchesTrim k = false) :
    (∃ k2, normalize_config ta data = Except.error (Err.checkError k2))
    ∧ normalize_config ta data false = Except.ok (normalizeValue ta data)
    ∧ ∀ op : RunFp, op.args = ta →
        runConfigOf op.args [("run", JVal.vdict data)]
          = Except.ok (normalizeValue ta data) := by
  have hkmem : (k, v) ∈ normalizeValue ta data := by
    unfold normalizeValue
    refine List.mem_append_left _ ?_
    rw [List.mem_filter]
    exact ⟨hk, by simp [htrim]⟩
  have hsome : ((normalizeValue ta data).find? (fun kv => !(declaredArg ta kv.1))).isSome := by
    rw [List.find?_isSome]
    exact ⟨(k, v), hkmem, by simp [hundecl]⟩
  obtain ⟨kv, hkv⟩ := Option.isSome_iff_exists.mp hsome
  have hfalse : normalize_config ta data false = Except.ok (normalizeValue ta data) := by
    simp only [normalize_config]
    rw [hkv]
    rfl
  refine ⟨⟨kv.1, ?_⟩, hfalse, ?_⟩
  · simp only [normalize_config]
    rw [hkv]
    rfl
  · intro op hop
    rw [hop]
    unfold runConfigOf
    have hlk : List.lookup "run" [("run", JVal.vdict data)] = some (JVal.vdict data) := by
      simp [List.lookup]
    rw [hlk]
    exact hfalse

/-- Witness for C8, with a one-key schema and data holding only an
undeclared key. -/
theorem normalize_config_strict_asymmetry_witness :
    (∃ k2, normalize_config taCmd dataBogus = Except.error (Err.checkError k2))
    ∧ normalize_config taCmd dataBogus false = Except.ok (normalizeValue taCmd dataBogus)
    ∧ ∀ op : RunFp, op.args = taCmd →
        runConfigOf op.args [("run", JVal.vdict dataBogus)]
          = Except.ok (normalizeValue taCmd dataBogus) :=
  normalize_config_strict_asymmetry taCmd dataBogus "bogus" (Atom.anat 1)
    (by decide) (by decide) (by decide)

/-- C10: `execute` never reads the path values of `optional_artifact` —
staging depends only on its keys, each resolved as `task_path/<key>` —
so two runs whose inputs differ only in those path values produce
identical states and identical output. -/
theorem execute_ignores_optional_artifact_values
    (op : RunFp) (tn : String) (tp : FsPath) (bl : List String) (ln bdn : String)
    (cfg : List (String × JVal)) (oi : ConfigDict)
    (oa1 oa2 : List (String × FsPath)) (s : State)
    (hkeys : oa1.map Prod.fst = oa2.map Prod.fst) :
    RunFp.execute op ⟨tn, tp, bl, ln, bdn, cfg, some oa1, oi⟩ s
      = RunFp.execute op ⟨tn, tp, bl, ln, bdn, cfg, some oa2, oi⟩ s := by
  have hopt : oa1.map (fun kv => tp ++ [kv.1]) = oa2.map (fun kv => tp ++ [kv.1]) := by
    have h1 := congrArg (List.map (fun k : String => tp ++ [k])) hkeys
    simpa [List.map_map, Function.comp_def] using h1
  simp only [RunFp.execute, hopt]

/-- Witness for C10: two inputs whose `aux` artifact points at entirely
different locations yield the same run. -/
theorem execute_ignores_optional_artifact_values_witness :
    RunFp.execute opPoscar ⟨"t10", ["inputs"], [], "log", "backward_dir",
        [("run", JVal.vdict [])], some [("aux", ["inputs", "extra.json"])], []⟩ s0
      = RunFp.execute opPoscar ⟨"t10", ["inputs"], [], "log", "backward_dir",
        [("run", JVal.vdict [])], some [("aux", ["somewhere", "else", "entirely"])], []⟩ s0 :=
  execute_ignores_optional_artifact_values opPoscar "t10" ["inputs"] [] "log" "backward_dir"
    [("run", JVal.vdict [])] [] [("aux", ["inputs", "extra.json"])]
    [("aux", ["somewhere", "else", "entirely"])] s0 (by decide)
